import Mathlib

/-!
Verification development for the NYKNYC wagmi connector
(provider / session / API-client state machine).

Each definition below is a shallow embedding of the corresponding
TypeScript function from the repository source:

* `mapStatus`, `withAuthFetch`, `validateApiResponse`,
  `waitForTransactionHash`, `waitForSignCompletion`, `pollAuthStatus`
  — from `src/utils/api.ts`;
* `isSessionValid`, `getSession`, `isValidSession` — from
  `src/utils/storage.ts`;
* `switchChain`, `walletSendCalls`, `walletGetCallsReceipt`,
  `personalSign` (signature-extraction slice) — from `src/provider.ts`.

JavaScript platform primitives used by that code (`String.toLowerCase`,
`parseInt(s, 16)`, `BigInt(string)`, string truthiness, `x || y`
defaulting, `Number.toString(16)`) are modelled by the small helpers in
the first section, faithful to the ECMAScript semantics on the value
domains the connector feeds them.
-/

/-- Lowercasing of a string, as JavaScript `String.prototype.toLowerCase`
acts on the ASCII status vocabulary the connector compares against. -/
def jsToLower (s : String) : String :=
  String.mk (s.data.map Char.toLower)

/-- JavaScript truthiness of a value that is either a string or
`undefined`/`null` (absent): truthy iff present and non-empty. -/
def isTruthyStr (o : Option String) : Bool :=
  match o with
  | some s => !s.isEmpty
  | none => false

/-- JavaScript `x || d` for `x` a string-or-absent value: the default is
taken when `x` is absent or the empty string. -/
def jsOrDefault (o : Option String) (d : String) : String :=
  match o with
  | some s => if s.isEmpty then d else s
  | none => d

/-- JavaScript whitespace recognised by string trimming. -/
def isJsSpace (c : Char) : Bool :=
  c = ' ' ∨ c = '\t' ∨ c = '\n' ∨ c = '\r' ∨ c = '\x0b' ∨ c = '\x0c'

/-- Characters of a string with leading and trailing whitespace removed,
as the implicit JavaScript trimming in `parseInt` and `BigInt`. -/
def jsTrimChars (s : String) : List Char :=
  ((s.data.dropWhile isJsSpace).reverse.dropWhile isJsSpace).reverse

/-- Numeric value of one hexadecimal digit, upper or lower case. -/
def hexDigitVal (c : Char) : Option Nat :=
  if '0' ≤ c ∧ c ≤ '9' then some (c.toNat - '0'.toNat)
  else if 'a' ≤ c ∧ c ≤ 'f' then some (c.toNat - 'a'.toNat + 10)
  else if 'A' ≤ c ∧ c ≤ 'F' then some (c.toNat - 'A'.toNat + 10)
  else none

/-- Numeric value of one decimal digit. -/
def decDigitVal (c : Char) : Option Nat :=
  if '0' ≤ c ∧ c ≤ '9' then some (c.toNat - '0'.toNat) else none

/-- Longest prefix of hexadecimal digits, as values. -/
def takeHexDigits : List Char → List Nat
  | [] => []
  | c :: cs =>
    match hexDigitVal c with
    | some v => v :: takeHexDigits cs
    | none => []

/-- Fold a digit list in a given base into a number. -/
def digitsToNat (base : Nat) (ds : List Nat) : Nat :=
  ds.foldl (fun acc d => acc * base + d) 0

/-- JavaScript `parseInt(s, 16)` restricted to its success/failure
outcome: trims whitespace, accepts an optional sign and an optional
`0x`/`0X` prefix, then reads the longest prefix of hex digits; `none`
models the `NaN` result (no digits). -/
def parseInt16 (s : String) : Option Int :=
  let cs := jsTrimChars s
  let signAndRest : Int × List Char :=
    match cs with
    | '-' :: rest => (-1, rest)
    | '+' :: rest => (1, rest)
    | _ => (1, cs)
  let afterPrefix : List Char :=
    match signAndRest.2 with
    | '0' :: 'x' :: rest => rest
    | '0' :: 'X' :: rest => rest
    | other => other
  let ds := takeHexDigits afterPrefix
  if ds.isEmpty then none
  else some (signAndRest.1 * (digitsToNat 16 ds : Nat))

/-- All-characters parse of a digit string in the given base, using the
given per-digit reader; `none` when empty or any character fails. -/
def parseAllDigits (digitVal : Char → Option Nat) (base : Nat) :
    List Char → Option Nat
  | [] => none
  | cs =>
    let step : Option Nat → Char → Option Nat := fun acc c =>
      match acc, digitVal c with
      | some a, some v => some (a * base + v)
      | _, _ => none
    cs.foldl step (some 0)

/-- JavaScript `BigInt(string)`: trims whitespace; empty means `0`;
a `0x`/`0X` prefix demands all-hex digits (no sign allowed); otherwise an
optional sign followed by all-decimal digits; `none` models the thrown
`SyntaxError`.  (The `0o`/`0b` prefixes never occur on the inputs of the connector, which are `0x` quantities or decimal strings, and are omitted.) -/
def jsBigIntOfString (s : String) : Option Int :=
  let cs := jsTrimChars s
  match cs with
  | [] => some 0
  | '0' :: 'x' :: rest => (parseAllDigits hexDigitVal 16 rest).map Int.ofNat
  | '0' :: 'X' :: rest => (parseAllDigits hexDigitVal 16 rest).map Int.ofNat
  | '-' :: rest => (parseAllDigits decDigitVal 10 rest).map (fun n => -(n : Int))
  | '+' :: rest => (parseAllDigits decDigitVal 10 rest).map Int.ofNat
  | _ => (parseAllDigits decDigitVal 10 cs).map Int.ofNat

/-- Hexadecimal rendering of a natural number, lower case, as JavaScript
`n.toString(16)` renders non-negative integers. -/
def natToHex (n : Nat) : String :=
  String.mk (Nat.toDigits 16 n)

/-- Hexadecimal rendering of an integer, as JavaScript `n.toString(16)`
(a leading minus sign for negative values). -/
def intToHex (n : Int) : String :=
  if n < 0 then "-" ++ natToHex n.natAbs else natToHex n.natAbs

/-- An EIP-1193 hex quantity: a `0x`-prefixed hexadecimal rendering, as
the template `0x${n.toString(16)}` produces. -/
def hexQuantity (n : Int) : String :=
  "0x" ++ intToHex n

/-!
Canonical transaction status vocabulary and the normalizer `mapStatus`
from `src/utils/api.ts`.
-/

/-- The canonical transaction status vocabulary of the connector
(`TransactionStatus.status` in `src/types.ts`, as used by
`src/utils/api.ts`). -/
inductive CanonicalStatus where
  | pending_signature : CanonicalStatus
  | signed : CanonicalStatus
  | broadcasted : CanonicalStatus
  | completed : CanonicalStatus
  | failed : CanonicalStatus
deriving DecidableEq, Repr

/-- String spelling of a canonical status, as it appears in payloads. -/
def canonicalToString (c : CanonicalStatus) : String :=
  match c with
  | .pending_signature => "pending_signature"
  | .signed => "signed"
  | .broadcasted => "broadcasted"
  | .completed => "completed"
  | .failed => "failed"

/-- Embedding of `mapStatus` (`src/utils/api.ts`): lower-cases the raw
status and matches it against the synonym sets of the `switch`; the
`pending_signature`/`pending`/`awaiting_signature` cases of the source
fall through to the same `default` result and are folded into it.  A
non-string raw status is modelled by `none` (the source compares the
empty string then). -/
def mapStatus (rawStatus : Option String) : CanonicalStatus :=
  let s := match rawStatus with
    | some str => jsToLower str
    | none => ""
  if s = "confirmed" ∨ s = "mined" ∨ s = "success" ∨ s = "completed" then
    .completed
  else if s = "broadcasted" ∨ s = "sent" ∨ s = "submitted" ∨ s = "broadcast" then
    .broadcasted
  else if s = "signed" then
    .signed
  else if s = "failed" ∨ s = "reverted" ∨ s = "error" then
    .failed
  else
    .pending_signature

/-- Status normalization as a string-to-string function: normalize a raw
backend spelling to the canonical spelling. -/
def normalizeStatus (s : String) : String :=
  canonicalToString (mapStatus (some s))

/-- The lower-case spellings recognized by the `switch` of `mapStatus`
(including the spellings listed on the `default` arm). -/
def knownStatusStrings : List String :=
  ["confirmed", "mined", "success", "completed",
   "broadcasted", "sent", "submitted", "broadcast",
   "signed",
   "failed", "reverted", "error",
   "pending_signature", "pending", "awaiting_signature"]

/-!
Authenticated fetch with single refresh-and-retry (`withAuthFetch`) and
response validation (`validateApiResponse`), from `src/utils/api.ts`.
-/

/-- An HTTP response as the connector observes it: a status code and a
decoded JSON body. -/
structure HttpResponse (T : Type) where
  status : Nat
  body : T
deriving Repr

/-- The fetch-standard `Response.ok` predicate: status in the 2xx range. -/
def responseOk (status : Nat) : Bool :=
  200 ≤ status ∧ status ≤ 299

/-- Embedding of `validateApiResponse` (`src/utils/api.ts`): maps a
non-ok status to the corresponding thrown error message. -/
def validateApiResponse (status : Nat) : Except String Unit :=
  if responseOk status then .ok ()
  else if status = 401 then
    .error "Authentication failed. Please reconnect your wallet."
  else if status = 403 then
    .error "Access denied. Please check your permissions."
  else if status = 429 then
    .error "Rate limit exceeded. Please try again later."
  else if status ≥ 500 then
    .error "Server error. Please try again later."
  else
    .error ("API request failed with status " ++ toString status)

/-- Observable outcome of `withAuthFetch`: the returned value or thrown
error, plus how many times the transport and the refresh callback ran. -/
structure AuthFetchResult (T : Type) where
  result : Except String T
  transportCalls : Nat
  refreshCalls : Nat
deriving Repr

/-- Embedding of `withAuthFetch` (`src/utils/api.ts`).  The transport is
modelled as a function of the call index (0 for the first call, 1 for
the retry) and the bearer token; the optional `onUnauthorized` refresh
callback is modelled by its outcome (a new token, or a thrown error).
On a 401 first response with a refresh callback present, the callback
runs once and the request is retried once with the new token; in every
other case the first response is validated and returned directly. -/
def withAuthFetch {T : Type} (makeRequest : Nat → String → HttpResponse T)
    (accessToken : String) (onUnauthorized : Option (Except String String)) :
    AuthFetchResult T :=
  let r0 := makeRequest 0 accessToken
  match onUnauthorized with
  | some refresh =>
    if r0.status = 401 then
      match refresh with
      | .ok newToken =>
        let r1 := makeRequest 1 newToken
        { result := (validateApiResponse r1.status).map (fun _ => r1.body)
          transportCalls := 2
          refreshCalls := 1 }
      | .error e =>
        { result := .error e, transportCalls := 1, refreshCalls := 1 }
    else
      { result := (validateApiResponse r0.status).map (fun _ => r0.body)
        transportCalls := 1
        refreshCalls := 0 }
  | none =>
    { result := (validateApiResponse r0.status).map (fun _ => r0.body)
      transportCalls := 1
      refreshCalls := 0 }

/-!
Normalized transaction status and the hash-polling loop
`waitForTransactionHash`, from `src/utils/api.ts`.
-/

/-- The canonical transaction status record produced by
`normalizeTransactionStatus` (`src/utils/api.ts`). -/
structure TransactionStatus where
  transaction_id : String
  status : CanonicalStatus
  transaction_hash : Option String
  block_number : Option Nat
  gas_used : Option String
  error : Option String
deriving DecidableEq, Repr

/-- Loop body of `waitForTransactionHash`: `fuel` is the number of
remaining attempts, `attempt` the index of the next poll.  A truthy
hash returns the status at once; a terminal `failed` status without a
hash throws the server-supplied error text (or a default); exhausted
attempts throw the timeout error. -/
def waitForTransactionHashLoop (getStatus : Nat → TransactionStatus) :
    Nat → Nat → Except String TransactionStatus
  | 0, _ => .error "Transaction hash timeout - polling exceeded maximum attempts"
  | fuel + 1, attempt =>
    let st := getStatus attempt
    if isTruthyStr st.transaction_hash then .ok st
    else if st.status = CanonicalStatus.failed then
      .error (jsOrDefault st.error "Transaction failed")
    else waitForTransactionHashLoop getStatus fuel (attempt + 1)

/-- Embedding of `waitForTransactionHash` (`src/utils/api.ts`): polls the
successive statuses `getStatus 0, getStatus 1, …` for up to
`maxAttempts` attempts.  The inter-poll sleep is pure time passage and
is not modelled. -/
def waitForTransactionHash (getStatus : Nat → TransactionStatus)
    (maxAttempts : Nat) : Except String TransactionStatus :=
  waitForTransactionHashLoop getStatus maxAttempts 0

/-!
Session record and expiry validity, from `src/utils/storage.ts`.
-/

/-- The in-memory session record (`NyknycSession` in `src/types.ts`).
Times are in milliseconds since the epoch, as `Date.now()` supplies. -/
structure NyknycSession where
  accessToken : String
  refreshToken : String
  expiresAt : Int
  walletAddress : String
  chainId : Int
  supportedChains : Option (List Int)
deriving DecidableEq, Repr

/-- Embedding of `NyknycStorage.isSessionValid` (`src/utils/storage.ts`):
`now` stands for `Date.now()`; the default buffer of the source is
`bufferMinutes = 5`.  A null session is invalid; otherwise the session
is valid iff `now` is strictly before `expiresAt` minus the buffer. -/
def isSessionValid (session : Option NyknycSession) (bufferMinutes : Int)
    (now : Int) : Bool :=
  match session with
  | none => false
  | some s =>
    let bufferMs := bufferMinutes * 60 * 1000
    let isExpired := decide (now ≥ s.expiresAt - bufferMs)
    !isExpired

/-!
Chain switching, from `src/provider.ts` (`switchChain`).
-/

/-- Embedding of `NyknycProvider.switchChain` (`src/provider.ts`).  The
mutable provider field `this.session` is passed in and the post-state is
returned alongside the outcome; on success the outcome carries the hex
chain id emitted with the `chainChanged` event.  A missing session, a
non-numeric chain id, and a known allowlist excluding the target each
fail without touching the session. -/
def switchChain (session : Option NyknycSession) (chainId : String) :
    Except String String × Option NyknycSession :=
  match session with
  | none => (.error "No active session", none)
  | some s =>
    match parseInt16 chainId with
    | none => (.error "Invalid chainId", some s)
    | some n =>
      match s.supportedChains with
      | some chains =>
        if n ∈ chains then
          (.ok (hexQuantity n), some { s with chainId := n })
        else
          (.error ("Chain " ++ toString n ++ " is not supported by NYKNYC wallet"),
           some s)
      | none => (.ok (hexQuantity n), some { s with chainId := n })

/-!
EIP-5792 batched calls, from `src/provider.ts`
(`walletSendCalls`, `walletGetCallsReceipt`).
-/

/-- One call of a `wallet_sendCalls` payload. -/
structure CallInput where
  «to» : Option String
  data : Option String
  value : Option String
deriving DecidableEq, Repr

/-- The `wallet_sendCalls` payload fields the connector reads. -/
structure SendCallsPayload where
  chainId : String
  calls : List CallInput
deriving DecidableEq, Repr

/-- The backend transaction-creation request body (`TransactionRequest`
in `src/types.ts`), as `walletSendCalls` assembles it per call. -/
structure TransactionRequest where
  wallet_address : String
  contract_address : Option String
  value : String
  data : Option String
  chain_id : Int
deriving DecidableEq, Repr

/-- The per-call value conversion of `walletSendCalls`
(`src/provider.ts`): an absent value defaults to `0x0`; the hex value is
converted through `BigInt` to a decimal string; a failing conversion is
caught and replaced by the decimal string `0`. -/
def callValueDecimal (value : Option String) : String :=
  let valueHex := value.getD "0x0"
  match jsBigIntOfString valueHex with
  | some n => toString n
  | none => "0"

/-- Embedding of the request-construction part of
`NyknycProvider.walletSendCalls` (`src/provider.ts`): validates the
payload (non-empty calls, numeric chain id matching the session) and
builds the list of backend transaction requests, one per call, in call
order.  The remote `createTransaction` calls, the signing window and the
batch-id bookkeeping are external effects acting on this list. -/
def walletSendCallsRequests (s : NyknycSession) (payload : SendCallsPayload) :
    Except String (List TransactionRequest) :=
  if payload.calls.isEmpty then .error "wallet_sendCalls: missing calls"
  else
    match parseInt16 payload.chainId with
    | none => .error "wallet_sendCalls: invalid chainId"
    | some reqChainId =>
      if reqChainId = s.chainId then
        .ok (payload.calls.map (fun call =>
          { wallet_address := s.walletAddress
            contract_address := call.«to»
            value := callValueDecimal call.value
            data := call.data
            chain_id := s.chainId }))
      else .error "wallet_sendCalls: chainId mismatch with active session"

/-- The status of a member transaction as `walletGetCallsReceipt` reads it:
the normalized `TransactionStatus` fields plus the `execution_status`
and `block_hash` fields the provider reads through an `any` cast
(present only if the backend were to supply them as strings). -/
structure BatchTxStatus where
  status : CanonicalStatus
  transaction_hash : Option String
  execution_status : Option String
  block_hash : Option String
  block_number : Option Nat
  gas_used : Option String
deriving DecidableEq, Repr

/-- A log entry of an EIP-5792 receipt (always empty in this connector). -/
structure LogEntry where
  address : String
  data : String
  topics : List String
deriving DecidableEq, Repr

/-- One EIP-5792 receipt as `walletGetCallsReceipt` builds it. -/
structure CallReceipt where
  logs : List LogEntry
  status : String
  blockHash : Option String
  blockNumber : Option String
  gasUsed : Option String
  transactionHash : String
deriving DecidableEq, Repr

/-- The `wallet_getCallsReceipt` result shape. -/
structure CallsReceiptResult where
  status : String
  receipts : Option (List CallReceipt)
deriving DecidableEq, Repr

/-- The success/failure hex code of one receipt (`src/provider.ts`):
an explicit `execution_status` of `failed` or a terminal `failed` status
gives `0x0`; else `success`/`completed` gives `0x1`; else the defensive
default `0x0`. -/
def receiptStatusHex (s : BatchTxStatus) : String :=
  if s.execution_status = some "failed" ∨ s.status = CanonicalStatus.failed then "0x0"
  else if s.execution_status = some "success" ∨ s.status = CanonicalStatus.completed then "0x1"
  else "0x0"

/-- Builds one receipt from a member status (`src/provider.ts`): logs are
always empty; the optional gas field goes through `BigInt`, whose throw
on an unparseable string propagates out of the whole call. -/
def buildCallReceipt (s : BatchTxStatus) : Except String CallReceipt :=
  let gasUsedField : Except String (Option String) :=
    match s.gas_used with
    | some g =>
      if g.isEmpty then .ok none
      else
        match jsBigIntOfString g with
        | some n => .ok (some ("0x" ++ intToHex n))
        | none => .error ("Cannot convert " ++ g ++ " to a BigInt")
    | none => .ok none
  gasUsedField.map (fun gu =>
    { logs := []
      status := receiptStatusHex s
      blockHash := s.block_hash
      blockNumber := s.block_number.map (fun n => "0x" ++ natToHex n)
      gasUsed := gu
      transactionHash := s.transaction_hash.getD "" })

/-- Sequencing of fallible per-element computations, with the leftmost
failure winning, as `Promise.all` over an array of already-started
fallible computations settles for this sequentialised model. -/
def mapExcept {α β : Type} (g : α → Except String β) : List α → Except String (List β)
  | [] => .ok []
  | a :: as =>
    match g a, mapExcept g as with
    | .ok b, .ok bs => .ok (b :: bs)
    | .error e, _ => .error e
    | .ok _, .error e => .error e

/-- Whether the execution outcome of a member is determinable
(`canDeriveOutcome` in `src/provider.ts`): an `execution_status` string
is present, or the status is terminal `completed`/`failed`. -/
def outcomeDeterminable (s : BatchTxStatus) : Bool :=
  s.execution_status.isSome ||
    decide (s.status = CanonicalStatus.completed) ||
    decide (s.status = CanonicalStatus.failed)

/-- Embedding of `NyknycProvider.walletGetCallsReceipt`
(`src/provider.ts`).  `callBatches` is the batch-id map of the provider as an
association list; `statusOf` gives the status `getTransactionStatus`
returns for each member transaction id.  An unknown (or empty) batch id
is a distinct error; a member without a truthy hash keeps the batch
`PENDING` with no receipts; all hashes present but some outcome not
determinable also keeps it `PENDING`; otherwise the batch is `CONFIRMED`
with one receipt per call. -/
def walletGetCallsReceipt (session : Option NyknycSession)
    (callBatches : List (String × List String))
    (statusOf : String → BatchTxStatus) (id : String) :
    Except String CallsReceiptResult :=
  match session with
  | none => .error "No active session"
  | some _ =>
    match callBatches.lookup id with
    | none => .error "wallet_getCallsReceipt: unknown id"
    | some txIds =>
      if txIds.isEmpty then .error "wallet_getCallsReceipt: unknown id"
      else
        let statuses := txIds.map statusOf
        if !statuses.all (fun s => isTruthyStr s.transaction_hash) then
          .ok { status := "PENDING", receipts := none }
        else if !statuses.all outcomeDeterminable then
          .ok { status := "PENDING", receipts := none }
        else
          (mapExcept buildCallReceipt statuses).map
            (fun rs => { status := "CONFIRMED", receipts := some rs })

/-!
Persisted-session loading, from `src/utils/storage.ts`
(`getSession`, `isValidSession`) over a model of JSON values.
-/

/-- A JSON value, as `JSON.parse` produces it. -/
inductive JsValue where
  | str : String → JsValue
  | num : Int → JsValue
  | bool : Bool → JsValue
  | null : JsValue
  | obj : List (String × JsValue) → JsValue
  | arr : List JsValue → JsValue

/-- Field access on the field list of an object. -/
def lookupField (fields : List (String × JsValue)) (k : String) : Option JsValue :=
  fields.lookup k

/-- Whether a field access yields a string (a `typeof` check against the string type). -/
def isStringField (o : Option JsValue) : Bool :=
  match o with
  | some (JsValue.str _) => true
  | _ => false

/-- Whether a field access yields a number (a `typeof` check against the number type). -/
def isNumberField (o : Option JsValue) : Bool :=
  match o with
  | some (JsValue.num _) => true
  | _ => false

/-- Embedding of `NyknycStorage.isValidSession` (`src/utils/storage.ts`):
structural validation of a parsed record.  Only a JSON object can pass
the truthiness-and-object-typeof guard of the source and its five
typed field checks; arrays pass the guard but have none of the named
fields, so every non-object value validates to `false`. -/
def isValidSession (v : JsValue) : Bool :=
  match v with
  | JsValue.obj fields =>
    isStringField (lookupField fields "accessToken") &&
    isStringField (lookupField fields "refreshToken") &&
    isNumberField (lookupField fields "expiresAt") &&
    isStringField (lookupField fields "walletAddress") &&
    isNumberField (lookupField fields "chainId")
  | _ => false

/-- The contents of the session slot of one storage backend: no record, a
record whose bytes `JSON.parse` rejects, or a record parsing to a JSON
value. -/
inductive Cell where
  | empty : Cell
  | malformed : String → Cell
  | wellFormed : JsValue → Cell

/-- The two storage backends of `NyknycStorage`: the optional wagmi
storage (absent when the connector was built without one) and the
localStorage fallback. -/
structure StoreState where
  wagmi : Option Cell
  fallback : Cell

/-- Embedding of `NyknycStorage.getItem` (`src/utils/storage.ts`): the
wagmi backend is consulted first; a null result falls back to
localStorage. -/
def readCell (st : StoreState) : Cell :=
  match st.wagmi with
  | some Cell.empty => st.fallback
  | some c => c
  | none => st.fallback

/-- Embedding of `NyknycStorage.removeSession` (`src/utils/storage.ts`):
removes the record from both backends. -/
def removeSessionStore (st : StoreState) : StoreState :=
  { wagmi := st.wagmi.map (fun _ => Cell.empty), fallback := Cell.empty }

/-- Embedding of `NyknycStorage.getSession` (`src/utils/storage.ts`),
returning the loaded record and the post-state of both backends.  An
absent record returns none; bytes that `JSON.parse` rejects raise inside
the `try`, are caught, and return none with the stored record left in
place; a parsed record failing structural validation is removed from
both backends and none is returned; a structurally valid record is
returned unchanged.  The function is total: no case throws. -/
def getSession (st : StoreState) : Option JsValue × StoreState :=
  match readCell st with
  | Cell.empty => (none, st)
  | Cell.malformed _ => (none, st)
  | Cell.wellFormed v =>
    if isValidSession v then (some v, st)
    else (none, removeSessionStore st)

/-!
Message-signing flow: the sign-status polling loop
(`waitForSignCompletion`, `src/utils/api.ts`) and the signature
extraction of `personalSign` (`src/provider.ts`).
-/

/-- The envelope of a sign-status payload.  The canonical repository
envelope shape (documented with `normalizeSignStatusPayload` in
`src/utils`) carries `finalSignature` and `signature_6492`; the
`signature` field is the one `personalSign` reads through an `any`
cast. -/
structure SignEnvelope where
  signature : Option String
  finalSignature : Option String
  signature_6492 : Option String
deriving DecidableEq, Repr

/-- A sign-status payload as returned by `GET /user/sign/:id` and
consumed by `waitForSignCompletion` and `personalSign`. -/
structure SignStatus where
  status : String
  error : Option String
  envelope : Option SignEnvelope
deriving DecidableEq, Repr

/-- Loop body of `waitForSignCompletion` (`src/utils/api.ts`): a
`signed` status returns the payload; `rejected`/`expired`/`failed` throw
the server error text (or a default naming the status); exhausted
attempts throw the timeout error. -/
def waitForSignCompletionLoop (getStatus : Nat → SignStatus) :
    Nat → Nat → Except String SignStatus
  | 0, _ => .error "Signing timeout - status polling exceeded maximum attempts"
  | fuel + 1, attempt =>
    let st := getStatus attempt
    if st.status = "signed" then .ok st
    else if st.status = "rejected" ∨ st.status = "expired" ∨ st.status = "failed" then
      .error (jsOrDefault st.error ("Signing " ++ st.status))
    else waitForSignCompletionLoop getStatus fuel (attempt + 1)

/-- Embedding of `waitForSignCompletion` (`src/utils/api.ts`). -/
def waitForSignCompletion (getStatus : Nat → SignStatus) (maxAttempts : Nat) :
    Except String SignStatus :=
  waitForSignCompletionLoop getStatus maxAttempts 0

/-- The signature extraction of `NyknycProvider.personalSign`
(`src/provider.ts`): reads `done?.envelope?.signature` and throws the
distinct completed-but-no-signature error when that read is falsy
(absent or empty). -/
def personalSignExtractSignature (done : SignStatus) : Except String String :=
  match done.envelope.bind SignEnvelope.signature with
  | some s =>
    if s.isEmpty then .error "Signing completed but no signature returned"
    else .ok s
  | none => .error "Signing completed but no signature returned"

/-- The poll-then-extract tail of `NyknycProvider.personalSign`
(`src/provider.ts`): waits for sign completion and extracts the
signature from the final payload.  The sign-request creation and the
review window are external effects preceding this slice. -/
def personalSignFromPolls (getStatus : Nat → SignStatus) (maxAttempts : Nat) :
    Except String String :=
  (waitForSignCompletion getStatus maxAttempts).bind personalSignExtractSignature

/-!
OAuth status polling (`pollAuthStatus`, `src/utils/api.ts`, the variant
carrying the OAuth fallback loop).
-/

/-- The poll-status response body (`AuthPollResponse` in `src/types.ts`):
the fields the loop reads, each modelled as present-as-string or not. -/
structure AuthPollResponse where
  status : Option String
  code : Option String
  error : Option String
deriving DecidableEq, Repr

/-- What one polling attempt observes: a network failure of `fetch`
itself, or an HTTP response with a status code and a body that either
parses as JSON (`some`) or does not (`none`). -/
inductive PollEvent where
  | networkError : PollEvent
  | response : Nat → Option AuthPollResponse → PollEvent
deriving DecidableEq, Repr

/-- Outcome of one polling attempt: resolve with the authorization code,
throw, or sleep for the given number of milliseconds and poll again. -/
inductive PollStepResult where
  | success : String → PollStepResult
  | failure : String → PollStepResult
  | waitThen : ℚ → PollStepResult
deriving DecidableEq, Repr

/-- The backoff delay `Math.min(intervalMs * Math.pow(1.5, attempt), 10000)`
used for 5xx responses and network errors, in exact rational arithmetic
(the double-precision evaluation of the source agrees on every attempt
index the 150-attempt loop can reach). -/
def pollBackoffMs (intervalMs : ℚ) (attempt : Nat) : ℚ :=
  min (intervalMs * (3 / 2 : ℚ) ^ attempt) 10000

/-- One attempt of `pollAuthStatus` (`src/utils/api.ts`).  A network
error backs off exponentially (the last-attempt rethrow of the loop is
handled in `pollAuthStatusRun`).  An unparseable body falls back to the
HTTP status: 404 keeps polling at the base interval, 429 doubles the
wait once, 5xx backs off exponentially, any other non-2xx status throws
a status-coded error, and an unparseable 2xx body rethrows the parse
error.  A parseable body is handled by its `status` field alone:
`not_found`, `pending` and anything unrecognized keep polling at the
base interval (the source lists `pending` as an explicit switch case
with the same body as the default, folded together here); `completed`
resolves with the code (throwing when the code is missing); `error` and
`expired` throw the server text or a default. -/
def pollStep (intervalMs : ℚ) (attempt : Nat) (e : PollEvent) : PollStepResult :=
  match e with
  | PollEvent.networkError => .waitThen (pollBackoffMs intervalMs attempt)
  | PollEvent.response httpStatus none =>
    if responseOk httpStatus then .failure "Unexpected end of JSON input"
    else if httpStatus = 404 then .waitThen intervalMs
    else if httpStatus = 429 then .waitThen (intervalMs * 2)
    else if httpStatus ≥ 500 then .waitThen (pollBackoffMs intervalMs attempt)
    else .failure ("Polling failed with status " ++ toString httpStatus)
  | PollEvent.response _ (some data) =>
    if data.status = some "not_found" then .waitThen intervalMs
    else if data.status = some "completed" then
      match data.code with
      | some c =>
        if c.isEmpty then .failure "Invalid response: missing authorization code"
        else .success c
      | none => .failure "Invalid response: missing authorization code"
    else if data.status = some "error" then
      .failure (jsOrDefault data.error "Authentication failed")
    else if data.status = some "expired" then
      .failure (jsOrDefault data.error "Authentication request expired")
    else .waitThen intervalMs

/-- The polling loop of `pollAuthStatus` (`src/utils/api.ts`): `fuel` is
the number of remaining attempts, `attempt` the index of the next one.
A network error on the final attempt rethrows the fetch error instead of
backing off (the last-attempt check of the source); otherwise the per-attempt
step is taken, and running out of attempts throws the timeout error. -/
def pollAuthStatusRun (events : Nat → PollEvent) (intervalMs : ℚ) :
    Nat → Nat → Except String String
  | 0, _ => .error "Authentication timeout: polling exceeded maximum duration (5 minutes)"
  | fuel + 1, attempt =>
    if fuel = 0 ∧ events attempt = PollEvent.networkError then
      .error "TypeError: fetch failed"
    else
      match pollStep intervalMs attempt (events attempt) with
      | PollStepResult.success c => .ok c
      | PollStepResult.failure m => .error m
      | PollStepResult.waitThen _ =>
        pollAuthStatusRun events intervalMs fuel (attempt + 1)

/-!
Claims.
-/

/-- C5: for every session S and time T, session validity with the default
buffer (bufferMinutes = 5, i.e. 300 seconds) is a pure function of time:
the session is valid iff T is strictly before `expiresAt` minus the
buffer; at exactly T = `expiresAt` minus the buffer the session is
invalid; and a null session is invalid at every time and buffer. -/
theorem isSessionValid_pure_time :
    (∀ (s : NyknycSession) (now : Int),
        isSessionValid (some s) 5 now = true ↔ now < s.expiresAt - 300 * 1000) ∧
    (∀ s : NyknycSession,
        isSessionValid (some s) 5 (s.expiresAt - 300 * 1000) = false) ∧
    (∀ (bufferMinutes now : Int),
        isSessionValid none bufferMinutes now = false) := by
  refine ⟨?_, ?_, ?_⟩
  · intro s now
    simp only [isSessionValid, Bool.not_eq_true', decide_eq_false_iff_not, not_le]
    omega
  · intro s
    simp only [isSessionValid, Bool.not_eq_false', decide_eq_true_eq]
    omega
  · intro bufferMinutes now
    rfl

/-- C6: transaction status normalization is total and idempotent: for
every string, normalizing twice equals normalizing once; matching is
case-insensitive against the known synonym sets (confirmed, mined and
success map to completed; sent and submitted map to broadcasted); and
every string whose lower-casing is outside the recognized vocabulary
normalizes to `pending_signature` (never to a success status). -/
theorem mapStatus_total_idempotent :
    (∀ s : String, normalizeStatus (normalizeStatus s) = normalizeStatus s) ∧
    (mapStatus (some "CONFIRMED") = CanonicalStatus.completed ∧
     mapStatus (some "Mined") = CanonicalStatus.completed ∧
     mapStatus (some "success") = CanonicalStatus.completed ∧
     mapStatus (some "SENT") = CanonicalStatus.broadcasted ∧
     mapStatus (some "Submitted") = CanonicalStatus.broadcasted) ∧
    (∀ s : String, jsToLower s ∉ knownStatusStrings →
        mapStatus (some s) = CanonicalStatus.pending_signature) := by
  refine ⟨?_, by decide, ?_⟩
  · intro s
    unfold normalizeStatus
    cases h : mapStatus (some s) <;> decide
  · intro s h
    simp only [knownStatusStrings, List.mem_cons, List.not_mem_nil, or_false,
      not_or] at h
    obtain ⟨h1, h2, h3, h4, h5, h6, h7, h8, h9, h10, h11, h12, _⟩ := h
    simp [mapStatus, h1, h2, h3, h4, h5, h6, h7, h8, h9, h10, h11, h12]

/-- Witness for C6: a concrete unrecognized spelling normalizes to
`pending_signature`. -/
theorem mapStatus_total_idempotent_witness :
    jsToLower "bogus" ∉ knownStatusStrings ∧
      mapStatus (some "bogus") = CanonicalStatus.pending_signature :=
  ⟨by decide, mapStatus_total_idempotent.2.2 "bogus" (by decide)⟩

/-- A mock transport returning 401 on the first call and 200 with a
payload on the retry. -/
def mock401Then200 : Nat → String → HttpResponse String :=
  fun i _ => if i = 0 then { status := 401, body := "unauthorized" }
             else { status := 200, body := "payload" }

/-- A mock transport returning 401 on every call. -/
def mock401Always : Nat → String → HttpResponse String :=
  fun _ _ => { status := 401, body := "unauthorized" }

/-- C2: `withAuthFetch` invokes the transport at most twice; when the
first response is a 401 and a refresh callback is supplied and succeeds,
the callback runs exactly once, the transport is retried exactly once
with the new token, and whatever the retry returns is propagated through
response validation with no further retry; a 401-then-200 transport
yields exactly two transport calls and a successful result, and a
401-then-401 transport yields exactly two transport calls and a
propagated authentication failure. -/
theorem withAuthFetch_single_retry :
    (∀ (T : Type) (makeRequest : Nat → String → HttpResponse T)
        (accessToken : String) (onUnauthorized : Option (Except String String)),
        (withAuthFetch makeRequest accessToken onUnauthorized).transportCalls ≤ 2) ∧
    (∀ (T : Type) (makeRequest : Nat → String → HttpResponse T)
        (accessToken newToken : String),
        (makeRequest 0 accessToken).status = 401 →
        withAuthFetch makeRequest accessToken (some (Except.ok newToken)) =
          { result := (validateApiResponse (makeRequest 1 newToken).status).map
              (fun _ => (makeRequest 1 newToken).body)
            transportCalls := 2
            refreshCalls := 1 }) ∧
    (withAuthFetch mock401Then200 "tok" (some (Except.ok "tok2")) =
      { result := Except.ok "payload", transportCalls := 2, refreshCalls := 1 }) ∧
    (withAuthFetch mock401Always "tok" (some (Except.ok "tok2")) =
      { result := Except.error "Authentication failed. Please reconnect your wallet."
        transportCalls := 2
        refreshCalls := 1 }) := by
  refine ⟨?_, ?_, rfl, rfl⟩
  · intro T makeRequest accessToken onUnauthorized
    unfold withAuthFetch
    cases onUnauthorized with
    | none => simp
    | some refresh =>
      cases refresh with
      | ok newToken =>
        by_cases h : (makeRequest 0 accessToken).status = 401 <;> simp [h]
      | error e =>
        by_cases h : (makeRequest 0 accessToken).status = 401 <;> simp [h]
  · intro T makeRequest accessToken newToken h
    simp [withAuthFetch, h]

/-- Witness for C2: the single-retry equation applied to the
401-then-200 mock transport. -/
theorem withAuthFetch_single_retry_witness :
    withAuthFetch mock401Then200 "tok" (some (Except.ok "tok2")) =
      { result := (validateApiResponse (mock401Then200 1 "tok2").status).map
          (fun _ => (mock401Then200 1 "tok2").body)
        transportCalls := 2
        refreshCalls := 1 } :=
  withAuthFetch_single_retry.2.1 String mock401Then200 "tok" "tok2" rfl

/-- One polling attempt that sees neither a truthy hash nor a terminal
failure just moves on to the next attempt. -/
theorem waitLoop_skip (getStatus : Nat → TransactionStatus) (fuel attempt : Nat)
    (h1 : isTruthyStr (getStatus attempt).transaction_hash = false)
    (h2 : (getStatus attempt).status ≠ CanonicalStatus.failed) :
    waitForTransactionHashLoop getStatus (fuel + 1) attempt =
      waitForTransactionHashLoop getStatus fuel (attempt + 1) := by
  simp [waitForTransactionHashLoop, h1, h2]

/-- Skipping `i` consecutive uninformative polls shifts the loop by `i`. -/
theorem waitLoop_shift (getStatus : Nat → TransactionStatus) :
    ∀ (i fuel attempt : Nat),
      (∀ j, j < i →
        isTruthyStr (getStatus (attempt + j)).transaction_hash = false ∧
        (getStatus (attempt + j)).status ≠ CanonicalStatus.failed) →
      waitForTransactionHashLoop getStatus (i + fuel) attempt =
        waitForTransactionHashLoop getStatus fuel (attempt + i) := by
  intro i
  induction i with
  | zero => intro fuel attempt _; rw [Nat.zero_add, Nat.add_zero]
  | succ k ih =>
    intro fuel attempt h
    have e1 : k + 1 + fuel = (k + fuel) + 1 := by omega
    have h0 := h 0 (by omega)
    rw [e1, waitLoop_skip getStatus (k + fuel) attempt (by simpa using h0.1)
      (by simpa using h0.2)]
    have := ih fuel (attempt + 1) (fun j hj => by
      have := h (j + 1) (by omega)
      constructor
      · have e : attempt + 1 + j = attempt + (j + 1) := by omega
        rw [e]; exact this.1
      · have e : attempt + 1 + j = attempt + (j + 1) := by omega
        rw [e]; exact this.2)
    rw [this]
    have e2 : attempt + 1 + k = attempt + (k + 1) := by omega
    rw [e2]

/-- C4: `waitForTransactionHash` returns the first polled status whose
transaction hash is truthy (even when that status is not terminal); when
a hashless polled status is terminal `failed` it raises the
server-supplied error text (with a default); after `maxAttempts` polls
with neither a hash nor a failure it raises the distinct timeout error;
and on the concrete sequence pending, broadcasted-with-hash,
completed-with-hash it resolves on the second poll with the hash. -/
theorem waitForTransactionHash_first_hash :
    (∀ (getStatus : Nat → TransactionStatus) (n i : Nat), i < n →
        (∀ j, j < i →
          isTruthyStr (getStatus j).transaction_hash = false ∧
          (getStatus j).status ≠ CanonicalStatus.failed) →
        isTruthyStr (getStatus i).transaction_hash = true →
        waitForTransactionHash getStatus n = .ok (getStatus i)) ∧
    (∀ (getStatus : Nat → TransactionStatus) (n i : Nat), i < n →
        (∀ j, j < i →
          isTruthyStr (getStatus j).transaction_hash = false ∧
          (getStatus j).status ≠ CanonicalStatus.failed) →
        isTruthyStr (getStatus i).transaction_hash = false →
        (getStatus i).status = CanonicalStatus.failed →
        waitForTransactionHash getStatus n =
          .error (jsOrDefault (getStatus i).error "Transaction failed")) ∧
    (∀ (getStatus : Nat → TransactionStatus) (n : Nat),
        (∀ j, j < n →
          isTruthyStr (getStatus j).transaction_hash = false ∧
          (getStatus j).status ≠ CanonicalStatus.failed) →
        waitForTransactionHash getStatus n =
          .error "Transaction hash timeout - polling exceeded maximum attempts") := by
  refine ⟨?_, ?_, ?_⟩
  · intro getStatus n i hin h hhash
    unfold waitForTransactionHash
    have e : n = i + (n - i) := by omega
    rw [e, waitLoop_shift getStatus i (n - i) 0 (fun j hj => by simpa using h j hj)]
    have e2 : n - i = (n - i - 1) + 1 := by omega
    rw [e2]
    simp [waitForTransactionHashLoop, hhash]
  · intro getStatus n i hin h hhash hfail
    unfold waitForTransactionHash
    have e : n = i + (n - i) := by omega
    rw [e, waitLoop_shift getStatus i (n - i) 0 (fun j hj => by simpa using h j hj)]
    have e2 : n - i = (n - i - 1) + 1 := by omega
    rw [e2]
    simp [waitForTransactionHashLoop, hhash, hfail]
  · intro getStatus n h
    unfold waitForTransactionHash
    have e : n = n + 0 := by omega
    rw [e, waitLoop_shift getStatus n 0 0 (fun j hj => by simpa using h j hj)]
    rfl

/-- The concrete status sequence of the C4 scenario: pending, then
broadcasted carrying the hash, then completed carrying the hash. -/
def c4Seq : Nat → TransactionStatus := fun i =>
  if i = 0 then
    { transaction_id := "t1", status := CanonicalStatus.pending_signature
      transaction_hash := none, block_number := none, gas_used := none, error := none }
  else if i = 1 then
    { transaction_id := "t1", status := CanonicalStatus.broadcasted
      transaction_hash := some "0xabc", block_number := none, gas_used := none
      error := none }
  else
    { transaction_id := "t1", status := CanonicalStatus.completed
      transaction_hash := some "0xabc", block_number := none, gas_used := none
      error := none }

/-- Witness for C4: on the scenario sequence the poll resolves at the
second attempt, with the broadcasted (not yet completed) status carrying
hash `0xabc`. -/
theorem waitForTransactionHash_first_hash_witness :
    waitForTransactionHash c4Seq 60 = .ok (c4Seq 1) ∧
      (c4Seq 1).transaction_hash = some "0xabc" ∧
      (c4Seq 1).status = CanonicalStatus.broadcasted :=
  ⟨waitForTransactionHash_first_hash.1 c4Seq 60 1 (by omega)
      (fun j hj => by
        have : j = 0 := by omega
        subst this
        exact ⟨by decide, by decide⟩)
      (by decide),
   by decide, by decide⟩

/-- The concrete session of the C7 scenario: active chain 1, allowlist
containing chains 1 and 10 only. -/
def c7Session : NyknycSession :=
  { accessToken := "tok", refreshToken := "ref", expiresAt := 0
    walletAddress := "0xwallet", chainId := 1
    supportedChains := some [1, 10] }

/-- C7: with an active session whose known allowlist excludes the
requested chain, `wallet_switchEthereumChain` fails with an error naming
the rejected chain id and leaves the session unchanged; a non-numeric
chain id fails with a distinct error without mutating the session;
otherwise the active chain id is updated and the emitted `chainChanged`
payload is the hex chain id; on the concrete scenario (allowlist 1 and
10, request 999) the call fails naming chain 999 with the session
untouched. -/
theorem switchChain_rejects_disallowed :
    (∀ (s : NyknycSession) (chainId : String) (chains : List Int) (n : Int),
        s.supportedChains = some chains → parseInt16 chainId = some n →
        n ∉ chains →
        switchChain (some s) chainId =
          (.error ("Chain " ++ toString n ++ " is not supported by NYKNYC wallet"),
           some s)) ∧
    (∀ (s : NyknycSession) (chainId : String),
        parseInt16 chainId = none →
        switchChain (some s) chainId = (.error "Invalid chainId", some s)) ∧
    (∀ (s : NyknycSession) (chainId : String) (chains : List Int) (n : Int),
        s.supportedChains = some chains → parseInt16 chainId = some n →
        n ∈ chains →
        switchChain (some s) chainId =
          (.ok (hexQuantity n), some { s with chainId := n })) ∧
    (switchChain (some c7Session) "0x3e7" =
      (.error "Chain 999 is not supported by NYKNYC wallet", some c7Session)) := by
  refine ⟨?_, ?_, ?_, rfl⟩
  · intro s chainId chains n hchains hparse hnot
    simp [switchChain, hchains, hparse, hnot]
  · intro s chainId hparse
    simp [switchChain, hparse]
  · intro s chainId chains n hchains hparse hmem
    simp [switchChain, hchains, hparse, hmem]

/-- Witness for C7: the allowlist-rejection equation applied to the
concrete scenario session and chain `0x3e7` (999). -/
theorem switchChain_rejects_disallowed_witness :
    switchChain (some c7Session) "0x3e7" =
      (.error ("Chain " ++ toString (999 : Int) ++ " is not supported by NYKNYC wallet"),
       some c7Session) :=
  switchChain_rejects_disallowed.1 c7Session "0x3e7" [1, 10] 999 rfl (by decide)
    (by decide)

/-- A successful `mapExcept` produces exactly one output per input. -/
theorem mapExcept_ok_length {α β : Type} (g : α → Except String β) :
    ∀ (l : List α) (rs : List β), mapExcept g l = .ok rs → rs.length = l.length := by
  intro l
  induction l with
  | nil =>
    intro rs h
    simp only [mapExcept] at h
    cases h
    rfl
  | cons a as ih =>
    intro rs h
    simp only [mapExcept] at h
    cases hga : g a with
    | error e => rw [hga] at h; cases h
    | ok b =>
      rw [hga] at h
      cases hrest : mapExcept g as with
      | error e => rw [hrest] at h; cases h
      | ok bs =>
        rw [hrest] at h
        cases h
        simp [ih bs hrest]

/-- A successful mapped `Except` comes from a successful computation. -/
theorem exceptMap_ok {α β : Type} (f : α → β) (e : Except String α) (b : β)
    (h : Except.map f e = .ok b) : ∃ a, e = .ok a ∧ b = f a := by
  cases e with
  | error err => simp [Except.map] at h
  | ok a => exact ⟨a, rfl, by simpa [Except.map] using h.symm⟩

/-- C1: `wallet_getCallsReceipt` on an unknown batch id fails with a
distinct error; for a known batch it returns PENDING with no receipts
whenever some member status lacks a truthy transaction hash, and also
whenever all members have hashes but some outcome is not determinable
from an `execution_status` string or a terminal completed/failed status;
only when every member has a hash and a determinable outcome does it
return CONFIRMED with exactly one receipt per call, each receipt
carrying the member hash, empty logs, and the success/failure hex code
(`0x0` on explicit or terminal failure, `0x1` on explicit success or
terminal completion). -/
theorem walletGetCallsReceipt_all_or_nothing :
    (∀ (sess : NyknycSession) (batches : List (String × List String))
        (statusOf : String → BatchTxStatus) (id : String),
        batches.lookup id = none →
        walletGetCallsReceipt (some sess) batches statusOf id =
          .error "wallet_getCallsReceipt: unknown id") ∧
    (∀ (sess : NyknycSession) (batches : List (String × List String))
        (statusOf : String → BatchTxStatus) (id : String) (txIds : List String),
        batches.lookup id = some txIds → txIds ≠ [] →
        (∃ t ∈ txIds, isTruthyStr (statusOf t).transaction_hash = false) →
        walletGetCallsReceipt (some sess) batches statusOf id =
          .ok { status := "PENDING", receipts := none }) ∧
    (∀ (sess : NyknycSession) (batches : List (String × List String))
        (statusOf : String → BatchTxStatus) (id : String) (txIds : List String),
        batches.lookup id = some txIds → txIds ≠ [] →
        (∀ t ∈ txIds, isTruthyStr (statusOf t).transaction_hash = true) →
        (∃ t ∈ txIds, outcomeDeterminable (statusOf t) = false) →
        walletGetCallsReceipt (some sess) batches statusOf id =
          .ok { status := "PENDING", receipts := none }) ∧
    (∀ (sess : NyknycSession) (batches : List (String × List String))
        (statusOf : String → BatchTxStatus) (id : String) (txIds : List String)
        (rs : List CallReceipt),
        batches.lookup id = some txIds → txIds ≠ [] →
        (∀ t ∈ txIds, isTruthyStr (statusOf t).transaction_hash = true) →
        (∀ t ∈ txIds, outcomeDeterminable (statusOf t) = true) →
        mapExcept buildCallReceipt (txIds.map statusOf) = .ok rs →
        walletGetCallsReceipt (some sess) batches statusOf id =
          .ok { status := "CONFIRMED", receipts := some rs } ∧
          rs.length = txIds.length) ∧
    (∀ (st : BatchTxStatus) (r : CallReceipt),
        buildCallReceipt st = .ok r →
        r.transactionHash = st.transaction_hash.getD "" ∧
        r.status = receiptStatusHex st ∧ r.logs = []) ∧
    (∀ st : BatchTxStatus,
        st.execution_status = some "failed" ∨ st.status = CanonicalStatus.failed →
        receiptStatusHex st = "0x0") ∧
    (∀ st : BatchTxStatus,
        st.execution_status ≠ some "failed" → st.status ≠ CanonicalStatus.failed →
        (st.execution_status = some "success" ∨ st.status = CanonicalStatus.completed) →
        receiptStatusHex st = "0x1") := by
  refine ⟨?_, ?_, ?_, ?_, ?_, ?_, ?_⟩
  · intro sess batches statusOf id h
    simp [walletGetCallsReceipt, h]
  · intro sess batches statusOf id txIds hlook hne hex
    have hempty : txIds.isEmpty = false := by
      cases txIds with
      | nil => exact absurd rfl hne
      | cons a as => rfl
    have hall : (txIds.map statusOf).all
        (fun s => isTruthyStr s.transaction_hash) = false := by
      obtain ⟨t, htmem, ht⟩ := hex
      apply List.all_eq_false.mpr
      exact ⟨statusOf t, List.mem_map_of_mem statusOf htmem, by simp [ht]⟩
    simp [walletGetCallsReceipt, hlook, hempty, hall]
  · intro sess batches statusOf id txIds hlook hne hhash hex
    have hempty : txIds.isEmpty = false := by
      cases txIds with
      | nil => exact absurd rfl hne
      | cons a as => rfl
    have hall : (txIds.map statusOf).all
        (fun s => isTruthyStr s.transaction_hash) = true := by
      apply List.all_eq_true.mpr
      intro x hx
      obtain ⟨t, htmem, rfl⟩ := List.mem_map.mp hx
      simp [hhash t htmem]
    have hdet : (txIds.map statusOf).all outcomeDeterminable = false := by
      obtain ⟨t, htmem, ht⟩ := hex
      apply List.all_eq_false.mpr
      exact ⟨statusOf t, List.mem_map_of_mem statusOf htmem, by simp [ht]⟩
    simp [walletGetCallsReceipt, hlook, hempty, hall, hdet]
  · intro sess batches statusOf id txIds rs hlook hne hhash hdet hmap
    have hempty : txIds.isEmpty = false := by
      cases txIds with
      | nil => exact absurd rfl hne
      | cons a as => rfl
    have hall : (txIds.map statusOf).all
        (fun s => isTruthyStr s.transaction_hash) = true := by
      apply List.all_eq_true.mpr
      intro x hx
      obtain ⟨t, htmem, rfl⟩ := List.mem_map.mp hx
      simp [hhash t htmem]
    have hall2 : (txIds.map statusOf).all outcomeDeterminable = true := by
      apply List.all_eq_true.mpr
      intro x hx
      obtain ⟨t, htmem, rfl⟩ := List.mem_map.mp hx
      simp [hdet t htmem]
    refine ⟨?_, ?_⟩
    · simp [walletGetCallsReceipt, hlook, hempty, hall, hall2, hmap, Except.map]
    · have := mapExcept_ok_length buildCallReceipt (txIds.map statusOf) rs hmap
      simpa using this
  · intro st r h
    unfold buildCallReceipt at h
    obtain ⟨gu, _, hr⟩ := exceptMap_ok _ _ _ h
    subst hr
    exact ⟨rfl, rfl, rfl⟩
  · intro st h
    have : (st.execution_status = some "failed" ∨ st.status = CanonicalStatus.failed) :=
      h
    simp [receiptStatusHex, this]
  · intro st h1 h2 h3
    simp [receiptStatusHex, h1, h2, h3]

/-- The concrete session of the C1 scenario. -/
def c1Session : NyknycSession :=
  { accessToken := "tok", refreshToken := "ref", expiresAt := 0
    walletAddress := "0xwallet", chainId := 1, supportedChains := none }

/-- The batch map of the C1 scenario: one batch of two calls. -/
def c1Batches : List (String × List String) := [("batch1", ["t1", "t2"])]

/-- The member statuses of the C1 scenario: the first call has a hash
and a terminal outcome, the second has no hash yet. -/
def c1StatusOf : String → BatchTxStatus := fun t =>
  if t = "t1" then
    { status := CanonicalStatus.completed, transaction_hash := some "0xhash1"
      execution_status := none, block_hash := none, block_number := none
      gas_used := none }
  else
    { status := CanonicalStatus.pending_signature, transaction_hash := none
      execution_status := none, block_hash := none, block_number := none
      gas_used := none }

/-- Witness for C1: with one member holding a hash and outcome and the
other holding no hash, the batch receipt is PENDING with no receipts
array. -/
theorem walletGetCallsReceipt_all_or_nothing_witness :
    walletGetCallsReceipt (some c1Session) c1Batches c1StatusOf "batch1" =
      .ok { status := "PENDING", receipts := none } :=
  walletGetCallsReceipt_all_or_nothing.2.1 c1Session c1Batches c1StatusOf
    "batch1" ["t1", "t2"] rfl (by decide) ⟨"t2", by decide, rfl⟩

/-- C10: for a non-empty calls array on the matching chain,
`wallet_sendCalls` submits every call, with a call whose value field is
absent submitted with decimal value `0`, and a call whose value fails
hex `BigInt` conversion also silently submitted with decimal value `0`
instead of failing the batch. -/
theorem walletSendCalls_value_fallback :
    (∀ (s : NyknycSession) (payload : SendCallsPayload),
        payload.calls.isEmpty = false →
        parseInt16 payload.chainId = some s.chainId →
        walletSendCallsRequests s payload =
          .ok (payload.calls.map (fun call =>
            { wallet_address := s.walletAddress
              contract_address := call.«to»
              value := callValueDecimal call.value
              data := call.data
              chain_id := s.chainId }))) ∧
    (callValueDecimal none = "0") ∧
    (∀ hex : String, jsBigIntOfString hex = none →
        callValueDecimal (some hex) = "0") := by
  refine ⟨?_, rfl, ?_⟩
  · intro s payload hne hchain
    simp [walletSendCallsRequests, hne, hchain]
  · intro hex h
    simp [callValueDecimal, h]

/-- The concrete session of the C10 scenario: active chain 1. -/
def c10Session : NyknycSession :=
  { accessToken := "tok", refreshToken := "ref", expiresAt := 0
    walletAddress := "0xwallet", chainId := 1, supportedChains := none }

/-- The concrete payload of the C10 scenario: one call with no value,
one with an unparseable hex value, one with value `0x10`. -/
def c10Payload : SendCallsPayload :=
  { chainId := "0x1"
    calls :=
      [ { «to» := some "0xaaa", data := none, value := none },
        { «to» := some "0xbbb", data := none, value := some "0xzz" },
        { «to» := some "0xccc", data := none, value := some "0x10" } ] }

/-- Witness for C10: the scenario batch is accepted whole; the absent
and unparseable values are both submitted as decimal `0`, the parseable
one as its decimal rendering. -/
theorem walletSendCalls_value_fallback_witness :
    walletSendCallsRequests c10Session c10Payload =
      .ok (c10Payload.calls.map (fun call =>
        { wallet_address := c10Session.walletAddress
          contract_address := call.«to»
          value := callValueDecimal call.value
          data := call.data
          chain_id := c10Session.chainId })) :=
  walletSendCalls_value_fallback.1 c10Session c10Payload rfl (by decide)

/-- The constant poll sequence of the C3 input: a `signed` status whose
envelope carries a non-empty `finalSignature` and no `signature` field,
the canonical backend envelope shape. -/
def c3Polls : Nat → SignStatus := fun _ =>
  { status := "signed", error := none
    envelope := some
      { signature := none, finalSignature := some "0xabc", signature_6492 := none } }

/-- C3: evaluation at the failing input.  The polling loop resolves with
a `signed` status carrying the non-empty final signature `0xabc` in the
documented `envelope.finalSignature` field, yet `personalSign` raises
the completed-but-no-signature error instead of returning it, because it
reads the nonexistent `envelope.signature` field. -/
theorem personalSign_drops_finalSignature :
    (c3Polls 0).status = "signed" ∧
    ((c3Polls 0).envelope.bind SignEnvelope.finalSignature) = some "0xabc" ∧
    waitForSignCompletion c3Polls 60 = .ok (c3Polls 0) ∧
    personalSignFromPolls c3Polls 60 =
      .error "Signing completed but no signature returned" :=
  ⟨rfl, rfl, rfl, rfl⟩

/-- A store whose only backend holds bytes that JSON parsing rejects. -/
def c9MalformedStore : StoreState :=
  { wagmi := none, fallback := Cell.malformed "corrupt bytes" }

/-- C9 counterexample: on a persisted record whose bytes do not parse as
JSON, `getSession` returns none but leaves the corrupt record in both
backends instead of deleting it: the post-state still holds the
malformed record, which is not the empty slot. -/
theorem getSession_malformed_not_deleted :
    getSession c9MalformedStore = (none, c9MalformedStore) ∧
    (getSession c9MalformedStore).2.fallback = Cell.malformed "corrupt bytes" ∧
    (removeSessionStore c9MalformedStore).fallback = Cell.empty :=
  ⟨rfl, rfl, rfl⟩

/-- C9 (amended): loading the session never throws (the embedding is a
total function); an absent record returns none; a record that parses as
JSON but fails structural validation is deleted from both storage
backends and none is returned; a record whose bytes do not parse as JSON
returns none with the stored record left in place. -/
theorem getSession_structure_policy :
    (∀ st : StoreState, readCell st = Cell.empty → getSession st = (none, st)) ∧
    (∀ (st : StoreState) (raw : String),
        readCell st = Cell.malformed raw → getSession st = (none, st)) ∧
    (∀ (st : StoreState) (v : JsValue),
        readCell st = Cell.wellFormed v → isValidSession v = false →
        getSession st = (none, removeSessionStore st) ∧
          (removeSessionStore st).fallback = Cell.empty ∧
          (removeSessionStore st).wagmi = st.wagmi.map (fun _ => Cell.empty)) ∧
    (∀ (st : StoreState) (v : JsValue),
        readCell st = Cell.wellFormed v → isValidSession v = true →
        getSession st = (some v, st)) := by
  refine ⟨?_, ?_, ?_, ?_⟩
  · intro st h
    unfold getSession
    rw [h]
  · intro st raw h
    unfold getSession
    rw [h]
  · intro st v h hv
    unfold getSession
    rw [h]
    exact ⟨by simp [hv], rfl, rfl⟩
  · intro st v h hv
    unfold getSession
    rw [h]
    simp [hv]

/-- A structurally invalid parsed record: `accessToken` is a number. -/
def c9BadRecord : JsValue :=
  JsValue.obj [("accessToken", JsValue.num 5)]

/-- A store holding the structurally invalid record in both backends. -/
def c9BadStore : StoreState :=
  { wagmi := some (Cell.wellFormed c9BadRecord)
    fallback := Cell.wellFormed c9BadRecord }

/-- Witness for C9 (amended): a parsed record failing structural
validation is removed from both backends and none is returned. -/
theorem getSession_structure_policy_witness :
    getSession c9BadStore = (none, removeSessionStore c9BadStore) :=
  (getSession_structure_policy.2.2.1 c9BadStore c9BadRecord rfl rfl).1

/-- A poll body reporting a terminal OAuth error. -/
def c8ErrorBody : AuthPollResponse :=
  { status := some "error", code := none, error := some "denied by user" }

/-- The constant event sequence of the C8 counterexample: every poll is
an HTTP 404 whose body parses to a terminal `error` status. -/
def c8Events : Nat → PollEvent := fun _ =>
  PollEvent.response 404 (some c8ErrorBody)

/-- C8 counterexample: an HTTP 404 response does not always keep the
poll going — when its body parses as JSON with a terminal `error`
status, the attempt fails with the server text and the whole loop errors
on the first poll.  The HTTP-status handling of the source only applies
when the body fails to parse as JSON. -/
theorem pollStep_404_error_body_fails :
    pollStep 2000 0 (PollEvent.response 404 (some c8ErrorBody)) =
      PollStepResult.failure "denied by user" ∧
    pollAuthStatusRun c8Events 2000 150 0 = .error "denied by user" :=
  ⟨rfl, rfl⟩

/-- C8 (amended): in the OAuth polling loop, an HTTP 404 whose body is
not parseable JSON, or any response whose parsed body status is
`not_found`, keeps polling at the base interval; a 429 with unparseable
body doubles the wait once; a 5xx with unparseable body, and a network
error, back off exponentially capped at 10 seconds; body statuses take
precedence over the HTTP status whenever the body parses, and the only
terminal parsed-body statuses are `completed` (which must carry a
non-empty code, else the attempt fails), `error` and `expired`; an
attempt that waits makes the loop poll again. -/
theorem pollAuthStatus_retry_policy :
    (∀ (i : ℚ) (a : Nat),
        pollStep i a (PollEvent.response 404 none) = PollStepResult.waitThen i) ∧
    (∀ (i : ℚ) (a st : Nat) (b : AuthPollResponse),
        b.status = some "not_found" →
        pollStep i a (PollEvent.response st (some b)) = PollStepResult.waitThen i) ∧
    (∀ (i : ℚ) (a : Nat),
        pollStep i a (PollEvent.response 429 none) = PollStepResult.waitThen (i * 2)) ∧
    (∀ (i : ℚ) (a st : Nat), 500 ≤ st →
        pollStep i a (PollEvent.response st none) =
          PollStepResult.waitThen (pollBackoffMs i a)) ∧
    (∀ (i : ℚ) (a : Nat),
        pollStep i a PollEvent.networkError =
          PollStepResult.waitThen (pollBackoffMs i a)) ∧
    (∀ (i : ℚ) (a : Nat), pollBackoffMs i a ≤ 10000) ∧
    (∀ (i : ℚ) (a st : Nat) (b : AuthPollResponse) (m : String),
        pollStep i a (PollEvent.response st (some b)) = PollStepResult.failure m →
        b.status = some "completed" ∨ b.status = some "error" ∨
          b.status = some "expired") ∧
    (∀ (i : ℚ) (a st : Nat) (b : AuthPollResponse) (c : String),
        pollStep i a (PollEvent.response st (some b)) = PollStepResult.success c →
        b.status = some "completed" ∧ b.code = some c ∧ c.isEmpty = false) ∧
    (∀ (i : ℚ) (a st : Nat) (b : AuthPollResponse),
        b.status = some "completed" → b.code = none →
        pollStep i a (PollEvent.response st (some b)) =
          PollStepResult.failure "Invalid response: missing authorization code") ∧
    (∀ (events : Nat → PollEvent) (i : ℚ) (fuel attempt : Nat) (d : ℚ),
        pollStep i attempt (events attempt) = PollStepResult.waitThen d →
        pollAuthStatusRun events i (fuel + 2) attempt =
          pollAuthStatusRun events i (fuel + 1) (attempt + 1)) := by
  refine ⟨fun i a => rfl, ?_, fun i a => rfl, ?_, fun i a => rfl,
    fun i a => min_le_right _ _, ?_, ?_, ?_, ?_⟩
  · intro i a st b hb
    simp [pollStep, hb]
  · intro i a st hst
    have h1 : responseOk st = false := by
      simp only [responseOk, decide_eq_false_iff_not, not_and, not_le]
      omega
    have h2 : st ≠ 404 := by omega
    have h3 : st ≠ 429 := by omega
    simp [pollStep, h1, h2, h3, hst]
  · intro i a st b m heq
    by_cases h1 : b.status = some "not_found"
    · simp [pollStep, h1] at heq
    by_cases h2 : b.status = some "completed"
    · exact Or.inl h2
    by_cases h3 : b.status = some "error"
    · exact Or.inr (Or.inl h3)
    by_cases h4 : b.status = some "expired"
    · exact Or.inr (Or.inr h4)
    · exfalso
      simp [pollStep, h1, h2, h3, h4] at heq
  · intro i a st b c heq
    by_cases h1 : b.status = some "not_found"
    · simp [pollStep, h1] at heq
    by_cases h2 : b.status = some "completed"
    · refine ⟨h2, ?_⟩
      simp only [pollStep] at heq
      rw [if_neg h1, if_pos h2] at heq
      cases hc : b.code with
      | none => rw [hc] at heq; simp at heq
      | some c0 =>
        rw [hc] at heq
        by_cases he : c0.isEmpty
        · simp [he] at heq
        · simp [he] at heq
          subst heq
          exact ⟨rfl, by simpa using he⟩
    by_cases h3 : b.status = some "error"
    · exfalso; simp [pollStep, h1, h2, h3] at heq
    by_cases h4 : b.status = some "expired"
    · exfalso; simp [pollStep, h1, h2, h3, h4] at heq
    · exfalso; simp [pollStep, h1, h2, h3, h4] at heq
  · intro i a st b hstatus hcode
    have h1 : b.status ≠ some "not_found" := by
      rw [hstatus]; decide
    simp [pollStep, h1, hstatus, hcode]
  · intro events i fuel attempt d hstep
    show pollAuthStatusRun events i ((fuel + 1) + 1) attempt = _
    conv_lhs => rw [pollAuthStatusRun]
    rw [if_neg (by simp), hstep]

/-- Witness for C8 (amended): a parsed body with status `not_found`
keeps polling at the base interval, for the concrete poll at interval
2000 ms. -/
theorem pollAuthStatus_retry_policy_witness :
    pollStep 2000 3 (PollEvent.response 200
        (some { status := some "not_found", code := none, error := none })) =
      PollStepResult.waitThen 2000 :=
  pollAuthStatus_retry_policy.2.1 2000 3 200
    { status := some "not_found", code := none, error := none } rfl
